import Mathlib

/-!
Verification of the zk proof cost estimator.

The main estimator (`app.py`) is embedded shallowly: Python ints become `ℤ`,
Python floats become `ℚ` (exact rational arithmetic; every decimal literal of
the source is exactly representable), `raise ValueError` becomes
`Except.error`, and Python's `round(x, n)` (round half to even at `n` decimal
digits) becomes `pyRound`.  The companion flat calculator
(`compare_schemes.py`) is embedded in namespace `CompareSchemes`.
-/

/-- One entry of the static `SYSTEMS` table of `app.py`. -/
structure ProvingSystem where
  key : String
  name : String
  family : String
  description : String
  base_ms_per_proof : ℚ
  base_usd_per_proof : ℚ
  scaling_factor : ℚ

/-- The `"aztec"` entry of `SYSTEMS`. -/
def aztec : ProvingSystem :=
  { key := "aztec"
    name := "Aztec-style zk SNARK System"
    family := "zk-snark"
    description := "Privacy-focused zk rollup proving for encrypted state and contracts."
    base_ms_per_proof := 420.0
    base_usd_per_proof := 0.18
    scaling_factor := 0.85 }

/-- The `"zama"` entry of `SYSTEMS`. -/
def zama : ProvingSystem :=
  { key := "zama"
    name := "Zama-style FHE + Proof Hybrid"
    family := "fhe-hybrid"
    description := "FHE-heavy design where zk proofs attest to encrypted compute pipelines."
    base_ms_per_proof := 780.0
    base_usd_per_proof := 0.35
    scaling_factor := 0.72 }

/-- The `"soundness"` entry of `SYSTEMS`. -/
def soundness : ProvingSystem :=
  { key := "soundness"
    name := "Soundness-first Minimal Circuit System"
    family := "verified-zk"
    description := "Formally specified circuits tuned for clarity and soundness over raw speed."
    base_ms_per_proof := 500.0
    base_usd_per_proof := 0.22
    scaling_factor := 0.90 }

/-- The `SYSTEMS` dict of `app.py`, as an association list. -/
def SYSTEMS : List (String × ProvingSystem) :=
  [("aztec", aztec), ("zama", zama), ("soundness", soundness)]

/-- The `SECURITY_LEVELS` dict of `app.py`, as an association list. -/
def SECURITY_LEVELS : List (ℤ × ℚ) :=
  [(128, 1.0), (192, 1.35), (256, 1.70)]

/-- `clamp` of `app.py`: `max(lo, min(hi, x))`. -/
def clamp (x lo hi : ℚ) : ℚ := max lo (min hi x)

/-- Round half to even: the integer nearest to `q`, ties going to the even
neighbour.  This is the rounding mode of Python's built-in `round`. -/
def rhe (q : ℚ) : ℤ :=
  if q - ⌊q⌋ < 1/2 then ⌊q⌋
  else if 1/2 < q - ⌊q⌋ then ⌊q⌋ + 1
  else if ⌊q⌋ % 2 = 0 then ⌊q⌋ else ⌊q⌋ + 1

/-- Python's `round(q, n)`: round to `n` decimal digits, ties to even. -/
def pyRound (q : ℚ) (n : ℕ) : ℚ := (rhe (q * 10 ^ n) : ℚ) / 10 ^ n

/-- `batches = (tx_count + batch_size - 1) // batch_size` (Python floor
division) from `estimate_cost` in `app.py`. -/
def batches_of (tx_count batch_size : ℤ) : ℤ :=
  (tx_count + batch_size - 1).fdiv batch_size

/-- `volume_factor = clamp(system.scaling_factor + (tx_count / 10_000) * 0.02, 0.5, 1.25)`
from `estimate_cost` in `app.py`. -/
def volume_factor (system : ProvingSystem) (tx_count : ℤ) : ℚ :=
  clamp (system.scaling_factor + ((tx_count : ℚ) / 10000) * 0.02) 0.5 1.25

/-- `per_proof_ms = system.base_ms_per_proof * sec_factor / hardware_scale`
then `per_proof_ms *= volume_factor`, from `estimate_cost` in `app.py`. -/
def per_proof_ms_raw (system : ProvingSystem) (tx_count : ℤ)
    (sec_factor hardware_scale : ℚ) : ℚ :=
  system.base_ms_per_proof * sec_factor / hardware_scale * volume_factor system tx_count

/-- `per_proof_usd = system.base_usd_per_proof * sec_factor / hardware_scale`
then `per_proof_usd *= volume_factor`, from `estimate_cost` in `app.py`. -/
def per_proof_usd_raw (system : ProvingSystem) (tx_count : ℤ)
    (sec_factor hardware_scale : ℚ) : ℚ :=
  system.base_usd_per_proof * sec_factor / hardware_scale * volume_factor system tx_count

/-- `total_ms = per_proof_ms * batches` from `estimate_cost` in `app.py`. -/
def total_ms_raw (system : ProvingSystem) (tx_count batch_size : ℤ)
    (sec_factor hardware_scale : ℚ) : ℚ :=
  per_proof_ms_raw system tx_count sec_factor hardware_scale *
    (batches_of tx_count batch_size : ℚ)

/-- `total_usd = per_proof_usd * batches` from `estimate_cost` in `app.py`. -/
def total_usd_raw (system : ProvingSystem) (tx_count batch_size : ℤ)
    (sec_factor hardware_scale : ℚ) : ℚ :=
  per_proof_usd_raw system tx_count sec_factor hardware_scale *
    (batches_of tx_count batch_size : ℚ)

/-- `per_tx_ms = total_ms / tx_count` from `estimate_cost` in `app.py`. -/
def per_tx_ms_raw (system : ProvingSystem) (tx_count batch_size : ℤ)
    (sec_factor hardware_scale : ℚ) : ℚ :=
  total_ms_raw system tx_count batch_size sec_factor hardware_scale / (tx_count : ℚ)

/-- `per_tx_usd = total_usd / tx_count` from `estimate_cost` in `app.py`. -/
def per_tx_usd_raw (system : ProvingSystem) (tx_count batch_size : ℤ)
    (sec_factor hardware_scale : ℚ) : ℚ :=
  total_usd_raw system tx_count batch_size sec_factor hardware_scale / (tx_count : ℚ)

/-- The dict returned by `estimate_cost` in `app.py`. -/
structure Estimate where
  system : String
  systemName : String
  family : String
  description : String
  securityBits : ℤ
  txCount : ℤ
  batchSize : ℤ
  batches : ℤ
  hardwareScale : ℚ
  perProofMs : ℚ
  perProofUsd : ℚ
  totalMs : ℚ
  totalUsd : ℚ
  perTxMs : ℚ
  perTxUsd : ℚ
  volumeFactor : ℚ

/-- `estimate_cost` of `app.py`: validation in source order, then the
closed-form cost model, with each output field rounded exactly as in the
source (`round(_, 3)`, `round(_, 6)`, `round(_, 5)`, `round(_, 8)`,
`round(_, 4)`). -/
def estimate_cost (system : ProvingSystem) (tx_count batch_size security_bits : ℤ)
    (hardware_scale : ℚ) : Except String Estimate :=
  if tx_count ≤ 0 then .error "tx_count must be positive."
  else if batch_size ≤ 0 then .error "batch_size must be positive."
  else
    match SECURITY_LEVELS.lookup security_bits with
    | none => .error "security_bits must be one of [128, 192, 256]."
    | some sec_factor =>
      if hardware_scale ≤ 0 then .error "hardware_scale must be > 0."
      else .ok
        { system := system.key
          systemName := system.name
          family := system.family
          description := system.description
          securityBits := security_bits
          txCount := tx_count
          batchSize := batch_size
          batches := batches_of tx_count batch_size
          hardwareScale := hardware_scale
          perProofMs := pyRound (per_proof_ms_raw system tx_count sec_factor hardware_scale) 3
          perProofUsd := pyRound (per_proof_usd_raw system tx_count sec_factor hardware_scale) 6
          totalMs := pyRound (total_ms_raw system tx_count batch_size sec_factor hardware_scale) 3
          totalUsd := pyRound (total_usd_raw system tx_count batch_size sec_factor hardware_scale) 6
          perTxMs := pyRound (per_tx_ms_raw system tx_count batch_size sec_factor hardware_scale) 5
          perTxUsd := pyRound (per_tx_usd_raw system tx_count batch_size sec_factor hardware_scale) 8
          volumeFactor := pyRound (volume_factor system tx_count) 4 }

namespace CompareSchemes

/-- `estimate_cost` of `compare_schemes.py`: the flat
gas-times-price calculator, returning `(total_gas, total_eth, total_usd)`. -/
def estimate_cost (num_proofs gas_per_proof : ℤ) (gas_price_gwei eth_price_usd : ℚ) :
    ℤ × ℚ × ℚ :=
  let total_gas := num_proofs * gas_per_proof
  let total_eth := (total_gas : ℚ) * gas_price_gwei * 1e-9
  let total_usd := total_eth * eth_price_usd
  (total_gas, total_eth, total_usd)

end CompareSchemes

/-! ### Helper lemmas about the embedding -/

theorem floor_le_rhe (q : ℚ) : ⌊q⌋ ≤ rhe q := by
  unfold rhe; split_ifs <;> omega

theorem rhe_le_floor_add_one (q : ℚ) : rhe q ≤ ⌊q⌋ + 1 := by
  unfold rhe; split_ifs <;> omega

theorem rhe_eq_of_near {q : ℚ} {z : ℤ} (h1 : (z : ℚ) - 1/2 < q) (h2 : q < (z : ℚ) + 1/2) :
    rhe q = z := by
  rcases le_or_lt (z : ℚ) q with hz | hz
  · have hf : ⌊q⌋ = z := Int.floor_eq_iff.mpr ⟨hz, by linarith⟩
    unfold rhe
    rw [hf, if_pos (by linarith)]
  · have hf : ⌊q⌋ = z - 1 := Int.floor_eq_iff.mpr ⟨by push_cast; linarith, by push_cast; linarith⟩
    unfold rhe
    rw [hf, if_neg (by push_cast; linarith), if_pos (by push_cast; linarith)]
    omega

theorem int_le_rhe {z : ℤ} {q : ℚ} (h : (z : ℚ) ≤ q) : z ≤ rhe q :=
  le_trans (Int.le_floor.mpr h) (floor_le_rhe q)

theorem rhe_le_int {z : ℤ} {q : ℚ} (h : q ≤ (z : ℚ)) : rhe q ≤ z := by
  have hfl : ⌊q⌋ ≤ z := by
    have := Int.floor_mono h
    simpa using this
  have hkey : ¬(q - (⌊q⌋ : ℚ) < 1/2) → ⌊q⌋ < z := by
    intro ha
    rcases lt_or_eq_of_le hfl with hlt | heq
    · exact hlt
    · exfalso
      have hzq : q - (⌊q⌋ : ℚ) ≤ 0 := by
        rw [heq]; linarith
      push_neg at ha
      linarith
  unfold rhe
  split_ifs with ha hb hc
  · exact hfl
  · have := hkey ha; omega
  · exact hfl
  · have := hkey ha; omega

theorem rhe_mono {x y : ℚ} (hxy : x ≤ y) : rhe x ≤ rhe y := by
  rcases lt_or_le ⌊x⌋ ⌊y⌋ with h | h
  · have h1 := rhe_le_floor_add_one x
    have h2 := floor_le_rhe y
    omega
  · have hf : ⌊x⌋ = ⌊y⌋ := le_antisymm (Int.floor_mono hxy) h
    unfold rhe
    rw [hf]
    split_ifs <;> first
      | omega
      | (exfalso; push_neg at *; linarith)

theorem pyRound_eq_of_near {q : ℚ} {n : ℕ} {z : ℤ}
    (h1 : (z : ℚ) - 1/2 < q * 10 ^ n) (h2 : q * 10 ^ n < (z : ℚ) + 1/2) :
    pyRound q n = (z : ℚ) / 10 ^ n := by
  rw [pyRound, rhe_eq_of_near h1 h2]

theorem pyRound_mono {x y : ℚ} (n : ℕ) (h : x ≤ y) : pyRound x n ≤ pyRound y n := by
  unfold pyRound
  have hp : (0 : ℚ) < 10 ^ n := by positivity
  apply (div_le_div_iff_of_pos_right hp).mpr
  exact_mod_cast rhe_mono (mul_le_mul_of_nonneg_right h (le_of_lt hp))

theorem le_pyRound_of_le {z : ℤ} {q : ℚ} {n : ℕ} (h : (z : ℚ) ≤ q * 10 ^ n) :
    (z : ℚ) / 10 ^ n ≤ pyRound q n := by
  unfold pyRound
  have hp : (0 : ℚ) < 10 ^ n := by positivity
  apply (div_le_div_iff_of_pos_right hp).mpr
  exact_mod_cast int_le_rhe h

theorem pyRound_le_of_le {z : ℤ} {q : ℚ} {n : ℕ} (h : q * 10 ^ n ≤ (z : ℚ)) :
    pyRound q n ≤ (z : ℚ) / 10 ^ n := by
  unfold pyRound
  have hp : (0 : ℚ) < 10 ^ n := by positivity
  apply (div_le_div_iff_of_pos_right hp).mpr
  exact_mod_cast rhe_le_int h

theorem lookup_128 : SECURITY_LEVELS.lookup 128 = some 1.0 := by
  simp [SECURITY_LEVELS, List.lookup]

theorem lookup_192 : SECURITY_LEVELS.lookup 192 = some 1.35 := by
  simp [SECURITY_LEVELS, List.lookup]

theorem lookup_256 : SECURITY_LEVELS.lookup 256 = some 1.70 := by
  simp [SECURITY_LEVELS, List.lookup]

theorem lookup_eq_none_of_invalid {bits : ℤ}
    (h : ¬(bits = 128 ∨ bits = 192 ∨ bits = 256)) :
    SECURITY_LEVELS.lookup bits = none := by
  push_neg at h
  obtain ⟨h1, h2, h3⟩ := h
  simp [SECURITY_LEVELS, List.lookup, beq_eq_false_iff_ne.mpr h1,
    beq_eq_false_iff_ne.mpr h2, beq_eq_false_iff_ne.mpr h3]

theorem sec_factor_ge_one {bits : ℤ} {s : ℚ}
    (h : SECURITY_LEVELS.lookup bits = some s) : 1 ≤ s := by
  by_cases h1 : bits = 128
  · rw [h1, lookup_128] at h
    rw [← Option.some_inj.mp h]; norm_num
  · by_cases h2 : bits = 192
    · rw [h2, lookup_192] at h
      rw [← Option.some_inj.mp h]; norm_num
    · by_cases h3 : bits = 256
      · rw [h3, lookup_256] at h
        rw [← Option.some_inj.mp h]; norm_num
      · rw [lookup_eq_none_of_invalid (by tauto)] at h
        exact absurd h (by simp)

theorem volume_factor_bounds (system : ProvingSystem) (tx_count : ℤ) :
    1/2 ≤ volume_factor system tx_count ∧ volume_factor system tx_count ≤ 5/4 := by
  unfold volume_factor clamp
  constructor
  · calc (1/2 : ℚ) = 0.5 := by norm_num
    _ ≤ max 0.5 (min 1.25 (system.scaling_factor + ((tx_count : ℚ) / 10000) * 0.02)) :=
      le_max_left _ _
  · apply max_le (by norm_num)
    calc min 1.25 (system.scaling_factor + ((tx_count : ℚ) / 10000) * 0.02) ≤ 1.25 :=
      min_le_left _ _
    _ = 5/4 := by norm_num

theorem estimate_cost_eq (system : ProvingSystem) {tx_count batch_size security_bits : ℤ}
    {hardware_scale : ℚ} {sec_factor : ℚ}
    (htx : 0 < tx_count) (hbs : 0 < batch_size)
    (hsec : SECURITY_LEVELS.lookup security_bits = some sec_factor)
    (hh : 0 < hardware_scale) :
    estimate_cost system tx_count batch_size security_bits hardware_scale = .ok
      { system := system.key
        systemName := system.name
        family := system.family
        description := system.description
        securityBits := security_bits
        txCount := tx_count
        batchSize := batch_size
        batches := batches_of tx_count batch_size
        hardwareScale := hardware_scale
        perProofMs := pyRound (per_proof_ms_raw system tx_count sec_factor hardware_scale) 3
        perProofUsd := pyRound (per_proof_usd_raw system tx_count sec_factor hardware_scale) 6
        totalMs := pyRound (total_ms_raw system tx_count batch_size sec_factor hardware_scale) 3
        totalUsd := pyRound (total_usd_raw system tx_count batch_size sec_factor hardware_scale) 6
        perTxMs := pyRound (per_tx_ms_raw system tx_count batch_size sec_factor hardware_scale) 5
        perTxUsd := pyRound (per_tx_usd_raw system tx_count batch_size sec_factor hardware_scale) 8
        volumeFactor := pyRound (volume_factor system tx_count) 4 } := by
  unfold estimate_cost
  rw [if_neg (not_le.mpr htx), if_neg (not_le.mpr hbs), hsec]
  exact if_neg (not_le.mpr hh)

theorem batches_of_eq_ceil {tx_count batch_size : ℤ} (htx : 0 < tx_count)
    (hbs : 0 < batch_size) :
    batches_of tx_count batch_size = ⌈(tx_count : ℚ) / (batch_size : ℚ)⌉ := by
  have hb0 : (0 : ℚ) < (batch_size : ℚ) := by exact_mod_cast hbs
  unfold batches_of
  rw [Int.fdiv_eq_ediv _ (by omega)]
  symm
  rw [Int.ceil_eq_iff]
  have hmod := Int.ediv_add_emod (tx_count + batch_size - 1) batch_size
  have hr0 : 0 ≤ (tx_count + batch_size - 1) % batch_size :=
    Int.emod_nonneg _ (by omega)
  have hrlt : (tx_count + batch_size - 1) % batch_size < batch_size :=
    Int.emod_lt_of_pos _ hbs
  constructor
  · rw [lt_div_iff₀ hb0]
    have h1 : ((tx_count + batch_size - 1) / batch_size - 1) * batch_size < tx_count := by
      nlinarith [hmod, hr0]
    exact_mod_cast h1
  · rw [div_le_iff₀ hb0]
    have h2 : tx_count ≤ (tx_count + batch_size - 1) / batch_size * batch_size := by
      nlinarith [hmod, hrlt]
    exact_mod_cast h2

theorem pyRound_eq_self_of_exact {q : ℚ} {n : ℕ} {z : ℤ} (hq : q * 10 ^ n = (z : ℚ)) :
    pyRound q n = q := by
  have h1 : (z : ℚ) - 1/2 < q * 10 ^ n := by rw [hq]; linarith
  have h2 : q * 10 ^ n < (z : ℚ) + 1/2 := by rw [hq]; linarith
  rw [pyRound_eq_of_near h1 h2, ← hq]
  field_simp

/-! ### The claims -/

/-- C1: `estimate_cost` rejects a non-positive `tx_count` or `batch_size`, a
`security_bits` outside {128, 192, 256}, and a non-positive `hardware_scale`
with a `ValueError` carrying a nonempty human-readable message and no partial
result; on inputs satisfying all four constraints it raises no error and
returns an estimate. -/
theorem C1_validation (system : ProvingSystem) (tx_count batch_size security_bits : ℤ)
    (hardware_scale : ℚ) :
    ((tx_count ≤ 0 ∨ batch_size ≤ 0 ∨
        ¬(security_bits = 128 ∨ security_bits = 192 ∨ security_bits = 256) ∨
        hardware_scale ≤ 0) →
      ∃ msg : String, msg ≠ "" ∧
        estimate_cost system tx_count batch_size security_bits hardware_scale =
          .error msg) ∧
    ((0 < tx_count ∧ 0 < batch_size ∧
        (security_bits = 128 ∨ security_bits = 192 ∨ security_bits = 256) ∧
        0 < hardware_scale) →
      ∃ e : Estimate,
        estimate_cost system tx_count batch_size security_bits hardware_scale = .ok e) := by
  constructor
  · intro hbad
    by_cases htx : tx_count ≤ 0
    · refine ⟨"tx_count must be positive.", by decide, ?_⟩
      unfold estimate_cost
      rw [if_pos htx]
    · by_cases hbs : batch_size ≤ 0
      · refine ⟨"batch_size must be positive.", by decide, ?_⟩
        unfold estimate_cost
        rw [if_neg htx, if_pos hbs]
      · by_cases hsec : security_bits = 128 ∨ security_bits = 192 ∨ security_bits = 256
        · have hh : hardware_scale ≤ 0 := by tauto
          refine ⟨"hardware_scale must be > 0.", by decide, ?_⟩
          unfold estimate_cost
          rw [if_neg htx, if_neg hbs]
          rcases hsec with h | h | h <;> rw [h]
          · rw [lookup_128]; exact if_pos hh
          · rw [lookup_192]; exact if_pos hh
          · rw [lookup_256]; exact if_pos hh
        · refine ⟨"security_bits must be one of [128, 192, 256].", by decide, ?_⟩
          unfold estimate_cost
          rw [if_neg htx, if_neg hbs, lookup_eq_none_of_invalid hsec]
  · rintro ⟨htx, hbs, hsec, hh⟩
    rcases hsec with h | h | h <;> subst h
    · exact ⟨_, estimate_cost_eq system htx hbs lookup_128 hh⟩
    · exact ⟨_, estimate_cost_eq system htx hbs lookup_192 hh⟩
    · exact ⟨_, estimate_cost_eq system htx hbs lookup_256 hh⟩

/-- Witness for C1: `tx_count = 0` is rejected with a nonempty message, and
the valid input `(aztec, 5000, 512, 128, 1.0)` yields an estimate. -/
theorem C1_validation_witness :
    (∃ msg : String, msg ≠ "" ∧ estimate_cost aztec 0 512 128 1 = .error msg) ∧
    (∃ e : Estimate, estimate_cost aztec 5000 512 128 1 = .ok e) := by
  constructor
  · exact (C1_validation aztec 0 512 128 1).1 (Or.inl (by decide))
  · exact (C1_validation aztec 5000 512 128 1).2 ⟨by decide, by decide, Or.inl rfl, by decide⟩

/-- C2: for every valid input the `batches` field of the returned estimate is
the integer ceiling of `tx_count / batch_size`, and `batches ≥ 1`. -/
theorem C2_batches (system : ProvingSystem) (tx_count batch_size security_bits : ℤ)
    (hardware_scale : ℚ) (htx : 0 < tx_count) (hbs : 0 < batch_size)
    (hsec : security_bits = 128 ∨ security_bits = 192 ∨ security_bits = 256)
    (hh : 0 < hardware_scale) :
    ∃ e : Estimate,
      estimate_cost system tx_count batch_size security_bits hardware_scale = .ok e ∧
      e.batches = ⌈(tx_count : ℚ) / (batch_size : ℚ)⌉ ∧ 1 ≤ e.batches := by
  have hbatch : batches_of tx_count batch_size = ⌈(tx_count : ℚ) / (batch_size : ℚ)⌉ :=
    batches_of_eq_ceil htx hbs
  have hpos : 1 ≤ batches_of tx_count batch_size := by
    rw [hbatch]
    have h1 : (0 : ℚ) < (tx_count : ℚ) / (batch_size : ℚ) :=
      div_pos (by exact_mod_cast htx) (by exact_mod_cast hbs)
    have h2 := Int.ceil_pos.mpr h1
    omega
  rcases hsec with h | h | h <;> subst h
  · exact ⟨_, estimate_cost_eq system htx hbs lookup_128 hh, hbatch, hpos⟩
  · exact ⟨_, estimate_cost_eq system htx hbs lookup_192 hh, hbatch, hpos⟩
  · exact ⟨_, estimate_cost_eq system htx hbs lookup_256 hh, hbatch, hpos⟩

/-- Witness for C2: at `(aztec, 5000, 512, 128, 1.0)` the batches field is
`ceil(5000 / 512)` and is at least 1. -/
theorem C2_batches_witness :
    ∃ e : Estimate, estimate_cost aztec 5000 512 128 1 = .ok e ∧
      e.batches = ⌈((5000 : ℤ) : ℚ) / ((512 : ℤ) : ℚ)⌉ ∧ 1 ≤ e.batches :=
  C2_batches aztec 5000 512 128 1 (by decide) (by decide) (Or.inl rfl) (by decide)

/-- C4: the documented scenario: the aztec profile
(`base_ms_per_proof = 420.0`, `base_usd_per_proof = 0.18`,
`scaling_factor = 0.85`) at `tx_count = 5000`, `batch_size = 512`,
`security_bits = 128`, `hardware_scale = 1.0` yields `batches = 10`,
`volumeFactor = 0.86`, `perProofMs = 361.2`, `totalMs = 3612.0`,
`perTxMs = 0.7224`. -/
theorem batches_aztec_eval : batches_of 5000 512 = 10 := by decide

theorem volume_factor_aztec_eval : volume_factor aztec 5000 = 0.86 := by
  unfold volume_factor clamp
  rw [show aztec.scaling_factor = 0.85 from rfl]
  norm_num

theorem per_proof_ms_aztec_eval : per_proof_ms_raw aztec 5000 1.0 1 = 361.2 := by
  unfold per_proof_ms_raw
  rw [volume_factor_aztec_eval, show aztec.base_ms_per_proof = 420.0 from rfl]
  norm_num

theorem total_ms_aztec_eval : total_ms_raw aztec 5000 512 1.0 1 = 3612 := by
  unfold total_ms_raw
  rw [per_proof_ms_aztec_eval, batches_aztec_eval]
  norm_num

theorem per_tx_ms_aztec_eval : per_tx_ms_raw aztec 5000 512 1.0 1 = 0.7224 := by
  unfold per_tx_ms_raw
  rw [total_ms_aztec_eval]
  norm_num

theorem C4_scenario :
    (estimate_cost aztec 5000 512 128 1).toOption.map Estimate.batches = some 10 ∧
    (estimate_cost aztec 5000 512 128 1).toOption.map Estimate.volumeFactor = some 0.86 ∧
    (estimate_cost aztec 5000 512 128 1).toOption.map Estimate.perProofMs = some 361.2 ∧
    (estimate_cost aztec 5000 512 128 1).toOption.map Estimate.totalMs = some 3612.0 ∧
    (estimate_cost aztec 5000 512 128 1).toOption.map Estimate.perTxMs = some 0.7224 := by
  have htx : (0 : ℤ) < 5000 := by decide
  have hbs : (0 : ℤ) < 512 := by decide
  have hh : (0 : ℚ) < 1 := by decide
  have he := estimate_cost_eq aztec htx hbs lookup_128 hh
  have hb := batches_aztec_eval
  have hv := volume_factor_aztec_eval
  have hpm := per_proof_ms_aztec_eval
  have htm := total_ms_aztec_eval
  have hptm := per_tx_ms_aztec_eval
  rw [he]
  refine ⟨?_, ?_, ?_, ?_, ?_⟩ <;> simp only [Except.toOption, Option.map, Option.some_inj]
  · exact hb
  · rw [hv]
    exact pyRound_eq_self_of_exact (show (0.86 : ℚ) * 10 ^ (4:ℕ) = ((8600 : ℤ) : ℚ) by norm_num)
  · rw [hpm]
    exact pyRound_eq_self_of_exact (show (361.2 : ℚ) * 10 ^ (3:ℕ) = ((361200 : ℤ) : ℚ) by norm_num)
  · rw [htm]
    rw [pyRound_eq_self_of_exact (show (3612 : ℚ) * 10 ^ (3:ℕ) = ((3612000 : ℤ) : ℚ) by norm_num)]
    norm_num
  · rw [hptm]
    exact pyRound_eq_self_of_exact (show (0.7224 : ℚ) * 10 ^ (5:ℕ) = ((72240 : ℤ) : ℚ) by norm_num)

/-- C3: the volume factor applied by `estimate_cost` is
`clamp(scaling_factor + (tx_count / 10000) * 0.02, 0.5, 1.25)`, and the
returned `volumeFactor` field always lies within [0.5, 1.25]. -/
theorem C3_volume_factor (system : ProvingSystem) (tx_count batch_size security_bits : ℤ)
    (hardware_scale : ℚ) (htx : 0 < tx_count) (hbs : 0 < batch_size)
    (hsec : security_bits = 128 ∨ security_bits = 192 ∨ security_bits = 256)
    (hh : 0 < hardware_scale) :
    volume_factor system tx_count =
      clamp (system.scaling_factor + ((tx_count : ℚ) / 10000) * 0.02) 0.5 1.25 ∧
    ∃ e : Estimate,
      estimate_cost system tx_count batch_size security_bits hardware_scale = .ok e ∧
      0.5 ≤ e.volumeFactor ∧ e.volumeFactor ≤ 1.25 := by
  have hvb := volume_factor_bounds system tx_count
  have h10 : ((10 : ℚ)) ^ (4:ℕ) = 10000 := by norm_num
  have hlow : ((5000 : ℤ) : ℚ) ≤ volume_factor system tx_count * 10 ^ (4:ℕ) := by
    rw [h10]; push_cast; nlinarith [hvb.1]
  have hup : volume_factor system tx_count * 10 ^ (4:ℕ) ≤ ((12500 : ℤ) : ℚ) := by
    rw [h10]; push_cast; nlinarith [hvb.2]
  have h1 := le_pyRound_of_le hlow
  have h2 := pyRound_le_of_le hup
  have hl2 : (0.5 : ℚ) ≤ pyRound (volume_factor system tx_count) 4 := by
    calc (0.5 : ℚ) = ((5000 : ℤ) : ℚ) / 10 ^ (4:ℕ) := by norm_num
    _ ≤ _ := h1
  have hu2 : pyRound (volume_factor system tx_count) 4 ≤ 1.25 := by
    calc pyRound (volume_factor system tx_count) 4 ≤ ((12500 : ℤ) : ℚ) / 10 ^ (4:ℕ) := h2
    _ = 1.25 := by norm_num
  rcases hsec with h | h | h <;> subst h
  · exact ⟨rfl, _, estimate_cost_eq system htx hbs lookup_128 hh, hl2, hu2⟩
  · exact ⟨rfl, _, estimate_cost_eq system htx hbs lookup_192 hh, hl2, hu2⟩
  · exact ⟨rfl, _, estimate_cost_eq system htx hbs lookup_256 hh, hl2, hu2⟩

/-- Witness for C3 at `(aztec, 5000, 512, 128, 1.0)`. -/
theorem C3_volume_factor_witness :
    volume_factor aztec 5000 =
      clamp (aztec.scaling_factor + (((5000 : ℤ) : ℚ) / 10000) * 0.02) 0.5 1.25 ∧
    ∃ e : Estimate, estimate_cost aztec 5000 512 128 1 = .ok e ∧
      0.5 ≤ e.volumeFactor ∧ e.volumeFactor ≤ 1.25 :=
  C3_volume_factor aztec 5000 512 128 1 (by decide) (by decide) (Or.inl rfl) (by decide)

/-- C5 as stated is false: the returned `perTxMs` field is rounded to 5
decimal places, not 3.  At the scenario input `(aztec, 5000, 512, 128, 1.0)`
the returned `perTxMs` is `0.7224`, whereas rounding the same quantity to 3
decimal places gives `0.722`. -/
theorem C5_counterexample :
    (estimate_cost aztec 5000 512 128 1).toOption.map Estimate.perTxMs = some 0.7224 ∧
    pyRound (per_tx_ms_raw aztec 5000 512 1.0 1) 3 = 0.722 ∧
    (0.7224 : ℚ) ≠ 0.722 := by
  refine ⟨?_, ?_, by norm_num⟩
  · have htx : (0 : ℤ) < 5000 := by decide
    have hbs : (0 : ℤ) < 512 := by decide
    have hh : (0 : ℚ) < 1 := by decide
    rw [estimate_cost_eq aztec htx hbs lookup_128 hh]
    simp only [Except.toOption, Option.map, Option.some_inj]
    rw [per_tx_ms_aztec_eval]
    exact pyRound_eq_self_of_exact (show (0.7224 : ℚ) * 10 ^ (5:ℕ) = ((72240 : ℤ) : ℚ) by norm_num)
  · rw [per_tx_ms_aztec_eval]
    rw [pyRound_eq_of_near (show ((722 : ℤ) : ℚ) - 1/2 < 0.7224 * 10 ^ (3:ℕ) by norm_num)
      (show (0.7224 : ℚ) * 10 ^ (3:ℕ) < ((722 : ℤ) : ℚ) + 1/2 by norm_num)]
    norm_num

/-- C5 amended: `perProofMs` and `totalMs` are rounded to 3 decimal places,
`perTxMs` to 5, `perProofUsd` and `totalUsd` to 6, and `perTxUsd` to 8;
rounding is applied only to the output fields, while the internal computation
(the `_raw` quantities) uses exact arithmetic. -/
theorem C5_rounding (system : ProvingSystem) (tx_count batch_size security_bits : ℤ)
    (hardware_scale sec_factor : ℚ) (htx : 0 < tx_count) (hbs : 0 < batch_size)
    (hsec : SECURITY_LEVELS.lookup security_bits = some sec_factor)
    (hh : 0 < hardware_scale) :
    ∃ e : Estimate,
      estimate_cost system tx_count batch_size security_bits hardware_scale = .ok e ∧
      e.perProofMs = pyRound (per_proof_ms_raw system tx_count sec_factor hardware_scale) 3 ∧
      e.totalMs = pyRound (total_ms_raw system tx_count batch_size sec_factor hardware_scale) 3 ∧
      e.perTxMs = pyRound (per_tx_ms_raw system tx_count batch_size sec_factor hardware_scale) 5 ∧
      e.perProofUsd = pyRound (per_proof_usd_raw system tx_count sec_factor hardware_scale) 6 ∧
      e.totalUsd = pyRound (total_usd_raw system tx_count batch_size sec_factor hardware_scale) 6 ∧
      e.perTxUsd = pyRound (per_tx_usd_raw system tx_count batch_size sec_factor hardware_scale) 8 :=
  ⟨_, estimate_cost_eq system htx hbs hsec hh, rfl, rfl, rfl, rfl, rfl, rfl⟩

/-- Witness for C5 amended at `(aztec, 5000, 512, 128, 1.0)`. -/
theorem C5_rounding_witness :
    ∃ e : Estimate,
      estimate_cost aztec 5000 512 128 1 = .ok e ∧
      e.perProofMs = pyRound (per_proof_ms_raw aztec 5000 1.0 1) 3 ∧
      e.totalMs = pyRound (total_ms_raw aztec 5000 512 1.0 1) 3 ∧
      e.perTxMs = pyRound (per_tx_ms_raw aztec 5000 512 1.0 1) 5 ∧
      e.perProofUsd = pyRound (per_proof_usd_raw aztec 5000 1.0 1) 6 ∧
      e.totalUsd = pyRound (total_usd_raw aztec 5000 512 1.0 1) 6 ∧
      e.perTxUsd = pyRound (per_tx_usd_raw aztec 5000 512 1.0 1) 8 :=
  C5_rounding aztec 5000 512 128 1 1.0 (by decide) (by decide) lookup_128 (by decide)

theorem pyRound_eq_zero_of_small {q : ℚ} {n : ℕ} (h1 : -(1/2) < q * 10 ^ n)
    (h2 : q * 10 ^ n < 1/2) : pyRound q n = 0 := by
  have h1b : ((0 : ℤ) : ℚ) - 1/2 < q * 10 ^ n := by push_cast; linarith
  have h2b : q * 10 ^ n < ((0 : ℤ) : ℚ) + 1/2 := by push_cast; linarith
  rw [pyRound_eq_of_near h1b h2b]
  norm_num

theorem per_proof_ms_aztec_lowscale (h : ℚ) (hh : h ≠ 0) :
    per_proof_ms_raw aztec 5000 1.0 h = 361.2 / h := by
  unfold per_proof_ms_raw
  rw [volume_factor_aztec_eval, show aztec.base_ms_per_proof = 420.0 from rfl]
  field_simp
  ring

theorem per_proof_usd_aztec_lowscale (h : ℚ) (hh : h ≠ 0) :
    per_proof_usd_raw aztec 5000 1.0 h = 0.1548 / h := by
  unfold per_proof_usd_raw
  rw [volume_factor_aztec_eval, show aztec.base_usd_per_proof = 0.18 from rfl]
  field_simp
  ring

/-- C6 as stated is false: the `perProofMs` and `perProofUsd` fields returned
by `estimate_cost` are rounded, so for the valid hardware scales
`h1 = 1000000 < h2 = 2000000` both fields round to `0` at both scales — they
are equal, not strictly decreasing. -/
theorem C6_counterexample :
    (0 : ℚ) < 1000000 ∧ (1000000 : ℚ) < 2000000 ∧
    (estimate_cost aztec 5000 512 128 1000000).toOption.map Estimate.perProofMs = some 0 ∧
    (estimate_cost aztec 5000 512 128 2000000).toOption.map Estimate.perProofMs = some 0 ∧
    (estimate_cost aztec 5000 512 128 1000000).toOption.map Estimate.perProofUsd = some 0 ∧
    (estimate_cost aztec 5000 512 128 2000000).toOption.map Estimate.perProofUsd = some 0 := by
  have htx : (0 : ℤ) < 5000 := by decide
  have hbs : (0 : ℤ) < 512 := by decide
  have hh1 : (0 : ℚ) < 1000000 := by norm_num
  have hh2 : (0 : ℚ) < 2000000 := by norm_num
  rw [estimate_cost_eq aztec htx hbs lookup_128 hh1, estimate_cost_eq aztec htx hbs lookup_128 hh2]
  refine ⟨by norm_num, by norm_num, ?_, ?_, ?_, ?_⟩ <;>
    simp only [Except.toOption, Option.map, Option.some_inj]
  · rw [per_proof_ms_aztec_lowscale 1000000 (by norm_num)]
    exact pyRound_eq_zero_of_small (by norm_num) (by norm_num)
  · rw [per_proof_ms_aztec_lowscale 2000000 (by norm_num)]
    exact pyRound_eq_zero_of_small (by norm_num) (by norm_num)
  · rw [per_proof_usd_aztec_lowscale 1000000 (by norm_num)]
    exact pyRound_eq_zero_of_small (by norm_num) (by norm_num)
  · rw [per_proof_usd_aztec_lowscale 2000000 (by norm_num)]
    exact pyRound_eq_zero_of_small (by norm_num) (by norm_num)

/-- C6 amended: increasing the hardware scale strictly decreases the
pre-rounding per-proof time and cost; the returned (rounded) `perProofMs` and
`perProofUsd` fields are weakly decreasing. -/
theorem C6_hardware_mono (system : ProvingSystem) (tx_count batch_size security_bits : ℤ)
    (h1 h2 sec_factor : ℚ) (htx : 0 < tx_count) (hbs : 0 < batch_size)
    (hsec : SECURITY_LEVELS.lookup security_bits = some sec_factor)
    (hbm : 0 < system.base_ms_per_proof) (hbu : 0 < system.base_usd_per_proof)
    (hh1 : 0 < h1) (h12 : h1 < h2) :
    per_proof_ms_raw system tx_count sec_factor h2 <
      per_proof_ms_raw system tx_count sec_factor h1 ∧
    per_proof_usd_raw system tx_count sec_factor h2 <
      per_proof_usd_raw system tx_count sec_factor h1 ∧
    ∃ e1 e2 : Estimate,
      estimate_cost system tx_count batch_size security_bits h1 = .ok e1 ∧
      estimate_cost system tx_count batch_size security_bits h2 = .ok e2 ∧
      e2.perProofMs ≤ e1.perProofMs ∧ e2.perProofUsd ≤ e1.perProofUsd := by
  have hh2 : 0 < h2 := lt_trans hh1 h12
  have hs : 1 ≤ sec_factor := sec_factor_ge_one hsec
  have hs0 : (0 : ℚ) < sec_factor := by linarith
  have hv0 : 0 < volume_factor system tx_count := by
    linarith [(volume_factor_bounds system tx_count).1]
  have key : ∀ b : ℚ, 0 < b →
      b * sec_factor / h2 * volume_factor system tx_count <
        b * sec_factor / h1 * volume_factor system tx_count := by
    intro b hb
    rw [div_mul_eq_mul_div, div_mul_eq_mul_div, div_lt_div_iff₀ hh2 hh1]
    exact mul_lt_mul_of_pos_left h12 (mul_pos (mul_pos hb hs0) hv0)
  have hms : per_proof_ms_raw system tx_count sec_factor h2 <
      per_proof_ms_raw system tx_count sec_factor h1 := key _ hbm
  have husd : per_proof_usd_raw system tx_count sec_factor h2 <
      per_proof_usd_raw system tx_count sec_factor h1 := key _ hbu
  exact ⟨hms, husd, _, _, estimate_cost_eq system htx hbs hsec hh1,
    estimate_cost_eq system htx hbs hsec hh2,
    pyRound_mono 3 (le_of_lt hms), pyRound_mono 6 (le_of_lt husd)⟩

/-- Witness for C6 amended at `(aztec, 5000, 512, 128)`, scales 1 and 2. -/
theorem C6_hardware_mono_witness :
    per_proof_ms_raw aztec 5000 1.0 2 < per_proof_ms_raw aztec 5000 1.0 1 ∧
    per_proof_usd_raw aztec 5000 1.0 2 < per_proof_usd_raw aztec 5000 1.0 1 ∧
    ∃ e1 e2 : Estimate,
      estimate_cost aztec 5000 512 128 1 = .ok e1 ∧
      estimate_cost aztec 5000 512 128 2 = .ok e2 ∧
      e2.perProofMs ≤ e1.perProofMs ∧ e2.perProofUsd ≤ e1.perProofUsd :=
  C6_hardware_mono aztec 5000 512 128 1 2 1.0 (by decide) (by decide) lookup_128
    (by norm_num [aztec]) (by norm_num [aztec]) (by norm_num) (by norm_num)

theorem per_proof_ms_aztec_192_lowscale (h : ℚ) (hh : h ≠ 0) :
    per_proof_ms_raw aztec 5000 1.35 h = 487.62 / h := by
  unfold per_proof_ms_raw
  rw [volume_factor_aztec_eval, show aztec.base_ms_per_proof = 420.0 from rfl]
  field_simp
  ring

theorem per_proof_usd_aztec_192_lowscale (h : ℚ) (hh : h ≠ 0) :
    per_proof_usd_raw aztec 5000 1.35 h = 0.20898 / h := by
  unfold per_proof_usd_raw
  rw [volume_factor_aztec_eval, show aztec.base_usd_per_proof = 0.18 from rfl]
  field_simp
  ring

/-- C7 as stated is false: the `perProofMs` and `perProofUsd` fields returned
by `estimate_cost` are rounded, so at the valid hardware scale `1000000000`
both fields round to `0` at `security_bits = 128` and at
`security_bits = 192` — moving 128 → 192 does not strictly increase them. -/
theorem C7_counterexample :
    (estimate_cost aztec 5000 512 128 1000000000).toOption.map Estimate.perProofMs = some 0 ∧
    (estimate_cost aztec 5000 512 192 1000000000).toOption.map Estimate.perProofMs = some 0 ∧
    (estimate_cost aztec 5000 512 128 1000000000).toOption.map Estimate.perProofUsd = some 0 ∧
    (estimate_cost aztec 5000 512 192 1000000000).toOption.map Estimate.perProofUsd = some 0 := by
  have htx : (0 : ℤ) < 5000 := by decide
  have hbs : (0 : ℤ) < 512 := by decide
  have hh : (0 : ℚ) < 1000000000 := by norm_num
  rw [estimate_cost_eq aztec htx hbs lookup_128 hh, estimate_cost_eq aztec htx hbs lookup_192 hh]
  refine ⟨?_, ?_, ?_, ?_⟩ <;> simp only [Except.toOption, Option.map, Option.some_inj]
  · rw [per_proof_ms_aztec_lowscale 1000000000 (by norm_num)]
    exact pyRound_eq_zero_of_small (by norm_num) (by norm_num)
  · rw [per_proof_ms_aztec_192_lowscale 1000000000 (by norm_num)]
    exact pyRound_eq_zero_of_small (by norm_num) (by norm_num)
  · rw [per_proof_usd_aztec_lowscale 1000000000 (by norm_num)]
    exact pyRound_eq_zero_of_small (by norm_num) (by norm_num)
  · rw [per_proof_usd_aztec_192_lowscale 1000000000 (by norm_num)]
    exact pyRound_eq_zero_of_small (by norm_num) (by norm_num)

/-- C7 amended: moving `security_bits` up the chain 128 → 192 → 256 strictly
increases the pre-rounding per-proof time and cost (multipliers 1.0 < 1.35 <
1.70); the returned (rounded) `perProofMs` and `perProofUsd` fields are
weakly increasing along the chain. -/
theorem C7_security_mono (system : ProvingSystem) (tx_count batch_size : ℤ)
    (hardware_scale : ℚ) (htx : 0 < tx_count) (hbs : 0 < batch_size)
    (hbm : 0 < system.base_ms_per_proof) (hbu : 0 < system.base_usd_per_proof)
    (hh : 0 < hardware_scale) :
    per_proof_ms_raw system tx_count 1.0 hardware_scale <
      per_proof_ms_raw system tx_count 1.35 hardware_scale ∧
    per_proof_ms_raw system tx_count 1.35 hardware_scale <
      per_proof_ms_raw system tx_count 1.70 hardware_scale ∧
    per_proof_usd_raw system tx_count 1.0 hardware_scale <
      per_proof_usd_raw system tx_count 1.35 hardware_scale ∧
    per_proof_usd_raw system tx_count 1.35 hardware_scale <
      per_proof_usd_raw system tx_count 1.70 hardware_scale ∧
    ∃ e1 e2 e3 : Estimate,
      estimate_cost system tx_count batch_size 128 hardware_scale = .ok e1 ∧
      estimate_cost system tx_count batch_size 192 hardware_scale = .ok e2 ∧
      estimate_cost system tx_count batch_size 256 hardware_scale = .ok e3 ∧
      e1.perProofMs ≤ e2.perProofMs ∧ e2.perProofMs ≤ e3.perProofMs ∧
      e1.perProofUsd ≤ e2.perProofUsd ∧ e2.perProofUsd ≤ e3.perProofUsd := by
  have hv0 : 0 < volume_factor system tx_count := by
    linarith [(volume_factor_bounds system tx_count).1]
  have key : ∀ b s1 s2 : ℚ, 0 < b → 0 ≤ s1 → s1 < s2 →
      b * s1 / hardware_scale * volume_factor system tx_count <
        b * s2 / hardware_scale * volume_factor system tx_count := by
    intro b s1 s2 hb hs1 hs12
    rw [div_mul_eq_mul_div, div_mul_eq_mul_div, div_lt_div_iff₀ hh hh]
    have hbs12 : b * s1 < b * s2 := mul_lt_mul_of_pos_left hs12 hb
    have : b * s1 * volume_factor system tx_count < b * s2 * volume_factor system tx_count :=
      mul_lt_mul_of_pos_right hbs12 hv0
    exact mul_lt_mul_of_pos_right this hh
  have hms1 : per_proof_ms_raw system tx_count 1.0 hardware_scale <
      per_proof_ms_raw system tx_count 1.35 hardware_scale :=
    key _ _ _ hbm (by norm_num) (by norm_num)
  have hms2 : per_proof_ms_raw system tx_count 1.35 hardware_scale <
      per_proof_ms_raw system tx_count 1.70 hardware_scale :=
    key _ _ _ hbm (by norm_num) (by norm_num)
  have husd1 : per_proof_usd_raw system tx_count 1.0 hardware_scale <
      per_proof_usd_raw system tx_count 1.35 hardware_scale :=
    key _ _ _ hbu (by norm_num) (by norm_num)
  have husd2 : per_proof_usd_raw system tx_count 1.35 hardware_scale <
      per_proof_usd_raw system tx_count 1.70 hardware_scale :=
    key _ _ _ hbu (by norm_num) (by norm_num)
  exact ⟨hms1, hms2, husd1, husd2, _, _, _,
    estimate_cost_eq system htx hbs lookup_128 hh,
    estimate_cost_eq system htx hbs lookup_192 hh,
    estimate_cost_eq system htx hbs lookup_256 hh,
    pyRound_mono 3 (le_of_lt hms1), pyRound_mono 3 (le_of_lt hms2),
    pyRound_mono 6 (le_of_lt husd1), pyRound_mono 6 (le_of_lt husd2)⟩

/-- Witness for C7 amended at `(aztec, 5000, 512)` with hardware scale 1. -/
theorem C7_security_mono_witness :
    per_proof_ms_raw aztec 5000 1.0 1 < per_proof_ms_raw aztec 5000 1.35 1 ∧
    per_proof_ms_raw aztec 5000 1.35 1 < per_proof_ms_raw aztec 5000 1.70 1 ∧
    per_proof_usd_raw aztec 5000 1.0 1 < per_proof_usd_raw aztec 5000 1.35 1 ∧
    per_proof_usd_raw aztec 5000 1.35 1 < per_proof_usd_raw aztec 5000 1.70 1 ∧
    ∃ e1 e2 e3 : Estimate,
      estimate_cost aztec 5000 512 128 1 = .ok e1 ∧
      estimate_cost aztec 5000 512 192 1 = .ok e2 ∧
      estimate_cost aztec 5000 512 256 1 = .ok e3 ∧
      e1.perProofMs ≤ e2.perProofMs ∧ e2.perProofMs ≤ e3.perProofMs ∧
      e1.perProofUsd ≤ e2.perProofUsd ∧ e2.perProofUsd ≤ e3.perProofUsd :=
  C7_security_mono aztec 5000 512 1 (by decide) (by decide)
    (by norm_num [aztec]) (by norm_num [aztec]) (by norm_num)

/-- C8: for every input that passes validation the estimate is returned with
all seven derived numeric fields (`perProofMs`, `perProofUsd`, `totalMs`,
`totalUsd`, `perTxMs`, `perTxUsd`, `volumeFactor`) present, each equal to the
rounding of an exact rational quantity — hence finite. -/
theorem C8_fields_present (system : ProvingSystem) (tx_count batch_size security_bits : ℤ)
    (hardware_scale sec_factor : ℚ) (htx : 0 < tx_count) (hbs : 0 < batch_size)
    (hsec : SECURITY_LEVELS.lookup security_bits = some sec_factor)
    (hh : 0 < hardware_scale) :
    ∃ e : Estimate,
      estimate_cost system tx_count batch_size security_bits hardware_scale = .ok e ∧
      e.perProofMs = pyRound (per_proof_ms_raw system tx_count sec_factor hardware_scale) 3 ∧
      e.perProofUsd = pyRound (per_proof_usd_raw system tx_count sec_factor hardware_scale) 6 ∧
      e.totalMs = pyRound (total_ms_raw system tx_count batch_size sec_factor hardware_scale) 3 ∧
      e.totalUsd = pyRound (total_usd_raw system tx_count batch_size sec_factor hardware_scale) 6 ∧
      e.perTxMs = pyRound (per_tx_ms_raw system tx_count batch_size sec_factor hardware_scale) 5 ∧
      e.perTxUsd = pyRound (per_tx_usd_raw system tx_count batch_size sec_factor hardware_scale) 8 ∧
      e.volumeFactor = pyRound (volume_factor system tx_count) 4 ∧
      1 ≤ e.batches :=
  ⟨_, estimate_cost_eq system htx hbs hsec hh, rfl, rfl, rfl, rfl, rfl, rfl, rfl, by
    have hbatch := batches_of_eq_ceil htx hbs
    have h1 : (0 : ℚ) < (tx_count : ℚ) / (batch_size : ℚ) :=
      div_pos (by exact_mod_cast htx) (by exact_mod_cast hbs)
    have h2 := Int.ceil_pos.mpr h1
    show 1 ≤ batches_of tx_count batch_size
    omega⟩

/-- Witness for C8 at `(aztec, 5000, 512, 128, 1.0)`. -/
theorem C8_fields_present_witness :
    ∃ e : Estimate,
      estimate_cost aztec 5000 512 128 1 = .ok e ∧
      e.perProofMs = pyRound (per_proof_ms_raw aztec 5000 1.0 1) 3 ∧
      e.perProofUsd = pyRound (per_proof_usd_raw aztec 5000 1.0 1) 6 ∧
      e.totalMs = pyRound (total_ms_raw aztec 5000 512 1.0 1) 3 ∧
      e.totalUsd = pyRound (total_usd_raw aztec 5000 512 1.0 1) 6 ∧
      e.perTxMs = pyRound (per_tx_ms_raw aztec 5000 512 1.0 1) 5 ∧
      e.perTxUsd = pyRound (per_tx_usd_raw aztec 5000 512 1.0 1) 8 ∧
      e.volumeFactor = pyRound (volume_factor aztec 5000) 4 ∧
      1 ≤ e.batches :=
  C8_fields_present aztec 5000 512 128 1 1.0 (by decide) (by decide) lookup_128 (by decide)

/-- C9: for all numeric inputs the companion flat calculator returns exactly
`total_gas = num_proofs * gas_per_proof`,
`total_eth = total_gas * gas_price_gwei * 1e-9`, and
`total_usd = total_eth * eth_price_usd`. -/
theorem C9_flat_calculator (num_proofs gas_per_proof : ℤ)
    (gas_price_gwei eth_price_usd : ℚ) :
    CompareSchemes.estimate_cost num_proofs gas_per_proof gas_price_gwei eth_price_usd =
      (num_proofs * gas_per_proof,
       ((num_proofs * gas_per_proof : ℤ) : ℚ) * gas_price_gwei * 1e-9,
       ((num_proofs * gas_per_proof : ℤ) : ℚ) * gas_price_gwei * 1e-9 * eth_price_usd) :=
  rfl

/-- C10: the security-level multiplier table has exactly three entries,
mapping 128 to 1.0, 192 to 1.35 and 256 to 1.70; the multiplier looked up for
`security_bits = 192` is exactly 1.35, and every multiplier is at least 1.0. -/
theorem C10_security_table :
    SECURITY_LEVELS = [(128, 1.0), (192, 1.35), (256, 1.70)] ∧
    SECURITY_LEVELS.length = 3 ∧
    SECURITY_LEVELS.lookup 192 = some 1.35 ∧
    SECURITY_LEVELS.all (fun p => decide (1 ≤ p.2)) = true := by
  refine ⟨rfl, rfl, lookup_192, ?_⟩
  simp [SECURITY_LEVELS]
  norm_num
